import Mathlib

/-!
Verification of the stock-ledger and purchase-order-fulfillment core of the
UDM inventory-management application.

The repository ships a React frontend (`frontend/src/hooks/useInventory.ts`,
`frontend/src/hooks/usePurchaseOrders.ts`, `frontend/src/types/inventory.ts`,
`frontend/src/components/orders/PurchaseOrdersPage.tsx`) whose hooks call a
FastAPI backend over HTTP.  The record shapes below are transcribed from
`frontend/src/types/inventory.ts`; the backend operations (the stock ledger's
`AdjustQuantity`, the purchase-order `receive`, and the movement query) are
not part of the frontend sources and are modelled from the design
specification, as marked on each definition.  Money values (`price`,
`unit_price`, `total_amount`) are modelled as exact integers (e.g. cents).
Timestamps are modelled as a logical clock (`Nat`) kept in the store.
-/

/-- Movement classification, transcribed from the `movement_type` union in
`frontend/src/types/inventory.ts` (`StockMovement.movement_type`). -/
inductive MovementType where
  | received
  | sold
  | adjusted
  | returned
  | damaged
  | transferred
deriving DecidableEq

/-- One immutable ledger record, transcribed from `StockMovement` in
`frontend/src/types/inventory.ts`. -/
structure StockMovement where
  id : Nat
  item_id : Nat
  quantity_change : Int
  quantity_before : Int
  quantity_after : Int
  movement_type : MovementType
  reason : Option String
  reference_number : Option String
  created_at : Nat
  created_by : Option String
deriving DecidableEq

/-- An inventory item, transcribed from `InventoryItem` in
`frontend/src/types/inventory.ts`. -/
structure InventoryItem where
  id : Nat
  sku : Option String
  name : String
  description : Option String
  quantity : Int
  price : Int
  cost_price : Int
  category : String
  reorder_level : Int
  supplier_id : Option Nat
deriving DecidableEq

/-- Purchase-order status, transcribed from the `status` union of
`PurchaseOrder` in `frontend/src/types/inventory.ts`. -/
inductive OrderStatus where
  | draft
  | pending
  | received
  | cancelled
deriving DecidableEq

/-- A purchase-order line item, transcribed from `PurchaseOrderItem` in
`frontend/src/types/inventory.ts`. -/
structure PurchaseOrderItem where
  id : Nat
  item_id : Nat
  quantity_ordered : Int
  quantity_received : Int
  unit_price : Int
deriving DecidableEq

/-- A purchase order, transcribed from `PurchaseOrder` in
`frontend/src/types/inventory.ts`. -/
structure PurchaseOrder where
  id : Nat
  po_number : String
  supplier_id : Nat
  status : OrderStatus
  total_amount : Int
  notes : Option String
  expected_delivery : Option Nat
  received_at : Option Nat
  created_at : Nat
  updated_at : Nat
  items : List PurchaseOrderItem
deriving DecidableEq

/-- Item-creation request, transcribed from `InventoryItemCreate` in
`frontend/src/hooks/useInventory.ts`.  The initial quantity is a `Nat`
because the specification's invariant (quantity is at least 0 at all times)
makes the caller-supplied initial value non-negative. -/
structure InventoryItemCreate where
  name : String
  description : Option String
  quantity : Nat
  price : Int
  cost_price : Int
  category : String
  sku : Option String
  reorder_level : Int
  supplier_id : Option Nat
deriving DecidableEq

/-- One line of an order-creation request, transcribed from the `items`
element type of `PurchaseOrderCreate` in `frontend/src/types/inventory.ts`.
Note the caller supplies no `total_amount` and no `quantity_received`. -/
structure PurchaseOrderItemCreate where
  item_id : Nat
  quantity_ordered : Int
  unit_price : Int
deriving DecidableEq

/-- Order-creation request, transcribed from `PurchaseOrderCreate` in
`frontend/src/types/inventory.ts`; the optional free-form `status` string is
modelled as an optional `OrderStatus`. -/
structure PurchaseOrderCreate where
  supplier_id : Nat
  items : List PurchaseOrderItemCreate
  notes : Option String
  expected_delivery : Option Nat
  status : Option OrderStatus
deriving DecidableEq

/-- Error kinds of the core, from the specification's error-handling design
(NotFound, InsufficientStock, InvalidOrderState, ZeroDelta; the list there is
explicitly non-exhaustive, and `ValidationError` covers creation-time input
validation such as a non-positive ordered quantity). -/
inductive LedgerError where
  | NotFound
  | InsufficientStock
  | InvalidOrderState
  | ZeroDelta
  | ValidationError
deriving DecidableEq

/-- The relational store: item registry, append-only movement log (newest
first), purchase orders, id counters and the logical clock. -/
structure DB where
  items : List InventoryItem
  movements : List StockMovement
  orders : List PurchaseOrder
  nextItemId : Nat
  nextMovementId : Nat
  nextOrderId : Nat
  clock : Nat
deriving DecidableEq

/-- The empty store. -/
def DB.empty : DB :=
  { items := [], movements := [], orders := [],
    nextItemId := 0, nextMovementId := 0, nextOrderId := 0, clock := 0 }

/-- Look an item up by id. -/
def findItemL (items : List InventoryItem) (iid : Nat) : Option InventoryItem :=
  items.find? (fun it => it.id == iid)

/-- Look an order up by id. -/
def findOrderL (orders : List PurchaseOrder) (oid : Nat) : Option PurchaseOrder :=
  orders.find? (fun o => o.id == oid)

/-- Write the quantity field of the item with the given id. -/
def setItemQuantity (items : List InventoryItem) (iid : Nat) (q : Int) :
    List InventoryItem :=
  items.map (fun it => if it.id == iid then { it with quantity := q } else it)

/-- The quantity of an item, if it exists. -/
def qtyOf (db : DB) (iid : Nat) : Option Int :=
  (findItemL db.items iid).map (fun it => it.quantity)

/-- Modelled from the spec: the stock ledger's single public operation
`AdjustQuantity(item_id, delta, movement_type, reason?, reference_number?,
actor?)` (design §4.1); the backend implementing it is not in the frontend
sources.  A zero delta is rejected; a missing item is NotFound; if
`quantity + delta < 0` the call fails with InsufficientStock and returns no
new store; otherwise, in one atomic unit, the item's quantity is written and
one movement recording before/after/change is appended (newest first), and
the created movement is returned. -/
def adjustQuantity (db : DB) (iid : Nat) (delta : Int) (mt : MovementType)
    (reason : Option String) (refnum : Option String) (actor : Option String) :
    Except LedgerError (DB × StockMovement) :=
  if delta = 0 then .error .ZeroDelta
  else
    match findItemL db.items iid with
    | none => .error .NotFound
    | some it =>
      if it.quantity + delta < 0 then .error .InsufficientStock
      else
        let mv : StockMovement :=
          { id := db.nextMovementId, item_id := iid, quantity_change := delta,
            quantity_before := it.quantity, quantity_after := it.quantity + delta,
            movement_type := mt, reason := reason, reference_number := refnum,
            created_at := db.clock, created_by := actor }
        .ok ({ db with
                items := setItemQuantity db.items iid (it.quantity + delta),
                movements := mv :: db.movements,
                nextMovementId := db.nextMovementId + 1,
                clock := db.clock + 1 }, mv)

/-- Modelled from the spec: `ListMovements(item_id)` returns the movement
sequence for an item, newest first; it is a pure query of the store (design
§4.1).  The log is kept newest first, so the query is a filter. -/
def listMovements (db : DB) (iid : Nat) : List StockMovement :=
  db.movements.filter (fun mv => mv.item_id == iid)

/-- Modelled from the spec: item creation (design §3) — the backend create
endpoint behind `addItem` in `frontend/src/hooks/useInventory.ts` is not in
the frontend sources.  A fresh id is assigned and the caller-supplied
initial quantity is stored. -/
def createItem (db : DB) (c : InventoryItemCreate) : DB × InventoryItem :=
  let it : InventoryItem :=
    { id := db.nextItemId, sku := c.sku, name := c.name,
      description := c.description, quantity := (c.quantity : Int),
      price := c.price, cost_price := c.cost_price, category := c.category,
      reorder_level := c.reorder_level, supplier_id := c.supplier_id }
  ({ db with items := db.items ++ [it], nextItemId := db.nextItemId + 1,
             clock := db.clock + 1 }, it)

/-- Modelled from the spec: item deletion — the backend endpoint behind
`deleteItem` in `frontend/src/hooks/useInventory.ts` is not in the frontend
sources.  The item record is removed; movements are never deleted (they are
the audit trail). -/
def deleteItem (db : DB) (iid : Nat) : Except LedgerError DB :=
  match findItemL db.items iid with
  | none => .error .NotFound
  | some _ =>
    .ok { db with items := db.items.filter (fun it => !(it.id == iid)),
                  clock := db.clock + 1 }

/-- Modelled from the spec: purchase-order creation (design §3, §6) — the
backend endpoint behind `createOrder` in
`frontend/src/hooks/usePurchaseOrders.ts` is not in the frontend sources.
`total_amount` is computed as the sum over line items of
`quantity_ordered * unit_price` (the caller supplies no total), `po_number`
is generated, `quantity_received` starts at 0, the status defaults to
pending, and creation is only into draft/pending.  Ordered quantities must
be positive (the spec relies on received deltas being always positive). -/
def createOrder (db : DB) (c : PurchaseOrderCreate) :
    Except LedgerError (DB × PurchaseOrder) :=
  let st := c.status.getD .pending
  if c.items.any (fun li => li.quantity_ordered ≤ 0) then .error .ValidationError
  else if !(st == .draft || st == .pending) then .error .ValidationError
  else
    let lines : List PurchaseOrderItem :=
      (List.range c.items.length).zip c.items |>.map (fun p =>
        { id := p.1, item_id := p.2.item_id,
          quantity_ordered := p.2.quantity_ordered, quantity_received := 0,
          unit_price := p.2.unit_price })
    let total : Int :=
      (c.items.map (fun li => li.quantity_ordered * li.unit_price)).sum
    let o : PurchaseOrder :=
      { id := db.nextOrderId, po_number := "PO-" ++ toString db.nextOrderId,
        supplier_id := c.supplier_id, status := st, total_amount := total,
        notes := c.notes, expected_delivery := c.expected_delivery,
        received_at := none, created_at := db.clock, updated_at := db.clock,
        items := lines }
    .ok ({ db with orders := o :: db.orders, nextOrderId := db.nextOrderId + 1,
                   clock := db.clock + 1 }, o)

/-- Modelled from the spec: cancellation `draft | pending → cancelled`
(design §4.2), terminal, no ledger effect; cancelling an order already in a
terminal state is an InvalidOrderState failure. -/
def cancelOrder (db : DB) (oid : Nat) : Except LedgerError DB :=
  match findOrderL db.orders oid with
  | none => .error .NotFound
  | some o =>
    if o.status = .draft ∨ o.status = .pending then
      .ok { db with
              orders := db.orders.map (fun p =>
                if p.id == oid then { p with status := .cancelled,
                                             updated_at := db.clock } else p),
              clock := db.clock + 1 }
    else .error .InvalidOrderState

/-- Modelled from the spec: the per-line loop of the receive algorithm
(design §4.2) — for every line item call
`AdjustQuantity(item_id, quantity_ordered, received, reference_number =
po_number)` and set that line's `quantity_received = quantity_ordered`.
The store is threaded through the adjustments; any failure aborts the whole
loop with no resulting store (the enclosing atomic unit). -/
def receiveLines (db : DB) (pon : String) (ls : List PurchaseOrderItem) :
    Except LedgerError (DB × List PurchaseOrderItem) :=
  match ls with
  | [] => .ok (db, [])
  | li :: rest =>
    match adjustQuantity db li.item_id li.quantity_ordered .received
        none (some pon) none with
    | .error e => .error e
    | .ok (db1, _) =>
      match receiveLines db1 pon rest with
      | .error e => .error e
      | .ok (db2, rest2) =>
        .ok (db2, { li with quantity_received := li.quantity_ordered } :: rest2)

/-- Modelled from the spec: the receive operation (design §4.2, §6) — the
backend endpoint behind `receiveOrder` in
`frontend/src/hooks/usePurchaseOrders.ts` is not in the frontend sources.
Receiving is permitted only from draft/pending (otherwise
InvalidOrderState); all line-item adjustments plus the order's own
status/`received_at`/`quantity_received` update form one atomic unit, and
the updated order is returned. -/
def receiveOrder (db : DB) (oid : Nat) :
    Except LedgerError (DB × PurchaseOrder) :=
  match findOrderL db.orders oid with
  | none => .error .NotFound
  | some o =>
    if o.status = .draft ∨ o.status = .pending then
      match receiveLines db o.po_number o.items with
      | .error e => .error e
      | .ok (db1, lines1) =>
        let o1 : PurchaseOrder :=
          { o with status := .received, received_at := some db1.clock,
                   updated_at := db1.clock, items := lines1 }
        .ok ({ db1 with
                 orders := db1.orders.map (fun p => if p.id == oid then o1 else p),
                 clock := db1.clock + 1 }, o1)
    else .error .InvalidOrderState

/-- An operation of the core, as issued by a caller. -/
inductive Op where
  | createItem (c : InventoryItemCreate)
  | deleteItem (iid : Nat)
  | adjust (iid : Nat) (delta : Int) (mt : MovementType)
      (reason : Option String) (refnum : Option String) (actor : Option String)
  | createOrder (c : PurchaseOrderCreate)
  | receiveOrder (oid : Nat)
  | cancelOrder (oid : Nat)
deriving DecidableEq

/-- Modelled from the spec: one request against the store.  Every failure
path leaves the data model in its prior state (propagation policy, design
§7): on an error the store is unchanged. -/
def step (db : DB) (op : Op) : DB :=
  match op with
  | .createItem c => (createItem db c).1
  | .deleteItem iid =>
    match deleteItem db iid with
    | .ok db1 => db1
    | .error _ => db
  | .adjust iid delta mt r rn a =>
    match adjustQuantity db iid delta mt r rn a with
    | .ok (db1, _) => db1
    | .error _ => db
  | .createOrder c =>
    match createOrder db c with
    | .ok (db1, _) => db1
    | .error _ => db
  | .receiveOrder oid =>
    match receiveOrder db oid with
    | .ok (db1, _) => db1
    | .error _ => db
  | .cancelOrder oid =>
    match cancelOrder db oid with
    | .ok db1 => db1
    | .error _ => db

/-- Run a sequence of operations. -/
def run (db : DB) (ops : List Op) : DB :=
  ops.foldl step db

/-! ### Basic lookup lemmas -/

theorem findItemL_id {items : List InventoryItem} {iid : Nat} {it : InventoryItem}
    (h : findItemL items iid = some it) : it.id = iid := by
  unfold findItemL at h
  simpa using List.find?_some h

theorem findOrderL_id {orders : List PurchaseOrder} {oid : Nat} {o : PurchaseOrder}
    (h : findOrderL orders oid = some o) : o.id = oid := by
  unfold findOrderL at h
  simpa using List.find?_some h

theorem findItemL_mem {items : List InventoryItem} {iid : Nat} {it : InventoryItem}
    (h : findItemL items iid = some it) : it ∈ items :=
  List.mem_of_find?_eq_some h

theorem findOrderL_mem {orders : List PurchaseOrder} {oid : Nat} {o : PurchaseOrder}
    (h : findOrderL orders oid = some o) : o ∈ orders :=
  List.mem_of_find?_eq_some h

theorem findItemL_set_self (items : List InventoryItem) (iid : Nat) (q : Int) :
    findItemL (setItemQuantity items iid q) iid =
      (findItemL items iid).map (fun it => { it with quantity := q }) := by
  unfold findItemL setItemQuantity
  rw [List.find?_map]
  have hpred : ((fun it : InventoryItem => it.id == iid) ∘
      (fun it : InventoryItem => if it.id == iid then { it with quantity := q } else it)) =
      (fun it : InventoryItem => it.id == iid) := by
    funext it
    by_cases h : it.id = iid <;> simp [h]
  rw [hpred]
  cases hf : items.find? (fun it => it.id == iid) with
  | none => simp
  | some it =>
    have hid := List.find?_some hf
    simp only [beq_iff_eq] at hid
    simp [hid]

theorem findItemL_set_other {j iid : Nat} (items : List InventoryItem) (q : Int)
    (h : j ≠ iid) :
    findItemL (setItemQuantity items iid q) j = findItemL items j := by
  unfold findItemL setItemQuantity
  rw [List.find?_map]
  have hpred : ((fun it : InventoryItem => it.id == j) ∘
      (fun it : InventoryItem => if it.id == iid then { it with quantity := q } else it)) =
      (fun it : InventoryItem => it.id == j) := by
    funext it
    by_cases hcase : it.id = iid <;> simp [hcase]
  rw [hpred]
  cases hf : items.find? (fun it => it.id == j) with
  | none => simp
  | some it =>
    have hid := List.find?_some hf
    simp only [beq_iff_eq] at hid
    have hne : it.id ≠ iid := by
      rw [hid]
      exact h
    simp [hne]

theorem mem_setItemQuantity_elim {x : InventoryItem} {items : List InventoryItem}
    {iid : Nat} {q : Int} (h : x ∈ setItemQuantity items iid q) :
    ∃ it ∈ items, (it.id ≠ iid ∧ x = it) ∨ (it.id = iid ∧ x = { it with quantity := q }) := by
  unfold setItemQuantity at h
  rcases List.mem_map.1 h with ⟨it, hit, hx⟩
  refine ⟨it, hit, ?_⟩
  by_cases hid : it.id = iid
  · right
    exact ⟨hid, by simpa [hid] using hx.symm⟩
  · left
    exact ⟨hid, by simpa [hid] using hx.symm⟩

theorem setItemQuantity_map_id (items : List InventoryItem) (iid : Nat) (q : Int) :
    (setItemQuantity items iid q).map InventoryItem.id = items.map InventoryItem.id := by
  unfold setItemQuantity
  rw [List.map_map]
  apply List.map_congr_left
  intro it _
  by_cases h : it.id = iid <;> simp [h]

/-! ### Characterization of a successful adjustment -/

theorem adjustQuantity_ok_elim {db db' : DB} {iid : Nat} {delta : Int}
    {mt : MovementType} {r rn a : Option String} {mv : StockMovement}
    (h : adjustQuantity db iid delta mt r rn a = .ok (db', mv)) :
    ∃ it, findItemL db.items iid = some it ∧ delta ≠ 0 ∧
      0 ≤ it.quantity + delta ∧
      mv = { id := db.nextMovementId, item_id := iid, quantity_change := delta,
             quantity_before := it.quantity,
             quantity_after := it.quantity + delta, movement_type := mt,
             reason := r, reference_number := rn, created_at := db.clock,
             created_by := a } ∧
      db' = { db with
                items := setItemQuantity db.items iid (it.quantity + delta),
                movements := mv :: db.movements,
                nextMovementId := db.nextMovementId + 1,
                clock := db.clock + 1 } := by
  unfold adjustQuantity at h
  split at h
  · exact absurd h (by simp)
  · rename_i hdelta
    split at h
    · exact absurd h (by simp)
    · rename_i it hfind
      split at h
      · exact absurd h (by simp)
      · rename_i hqty
        simp only [Except.ok.injEq, Prod.mk.injEq] at h
        obtain ⟨h1, h2⟩ := h
        subst h2
        exact ⟨it, hfind, hdelta, by omega, rfl, h1.symm⟩

theorem adjustQuantity_error_state {db : DB} {iid : Nat} {delta : Int}
    {mt : MovementType} {r rn a : Option String} {e : LedgerError}
    (h : adjustQuantity db iid delta mt r rn a = .error e) :
    step db (.adjust iid delta mt r rn a) = db := by
  simp [step, h]

theorem adjustQuantity_error_kind {db : DB} {iid : Nat} {delta : Int}
    {mt : MovementType} {r rn a : Option String} {e : LedgerError}
    (h : adjustQuantity db iid delta mt r rn a = .error e) :
    e = .ZeroDelta ∨ e = .NotFound ∨ e = .InsufficientStock := by
  unfold adjustQuantity at h
  split at h
  · left
    simpa using h.symm
  · split at h
    · right; left
      simpa using h.symm
    · split at h
      · right; right
        simpa using h.symm
      · exact absurd h (by simp)

theorem adjustQuantity_insufficient_iff {db : DB} {iid : Nat} {delta : Int}
    (mt : MovementType) (r rn a : Option String) {it : InventoryItem}
    (hfind : findItemL db.items iid = some it) (hdelta : delta ≠ 0) :
    adjustQuantity db iid delta mt r rn a = .error .InsufficientStock ↔
      it.quantity + delta < 0 := by
  unfold adjustQuantity
  simp only [hdelta, if_false, hfind]
  constructor
  · intro h
    by_contra hge
    simp only [if_neg hge] at h
    exact absurd h (by simp)
  · intro h
    simp [h]

/-! ### The store invariant -/

/-- The invariant of the store, combining the spec's testable properties with
bookkeeping facts (fresh ids, fresh clock) needed to maintain them:
quantities are never negative; every movement satisfies
`quantity_after = quantity_before + quantity_change`; the most recent
movement of an item records the item's current quantity; ids referenced and
stored are below their counters and duplicate-free; movement timestamps are
below the clock and strictly descending (newest first). -/
structure DBInv (db : DB) : Prop where
  items_nonneg : ∀ it ∈ db.items, 0 ≤ it.quantity
  mv_consistent : ∀ mv ∈ db.movements,
    mv.quantity_after = mv.quantity_before + mv.quantity_change
  latest_matches : ∀ it ∈ db.items, ∀ mv,
    (listMovements db it.id).head? = some mv → mv.quantity_after = it.quantity
  item_ids_lt : ∀ it ∈ db.items, it.id < db.nextItemId
  mv_item_ids_lt : ∀ mv ∈ db.movements, mv.item_id < db.nextItemId
  mv_clock_lt : ∀ mv ∈ db.movements, mv.created_at < db.clock
  mv_sorted : db.movements.Pairwise (fun x y => y.created_at < x.created_at)
  item_ids_nodup : (db.items.map InventoryItem.id).Nodup
  order_ids_nodup : (db.orders.map PurchaseOrder.id).Nodup
  order_ids_lt : ∀ o ∈ db.orders, o.id < db.nextOrderId

theorem DBInv_empty : DBInv DB.empty := by
  constructor <;> simp [DB.empty, listMovements]

theorem listMovements_cons_self (db : DB) (mv : StockMovement) (rest : DB)
    (hmv : rest.movements = mv :: db.movements) :
    listMovements rest mv.item_id = mv :: listMovements db mv.item_id := by
  simp [listMovements, hmv]

theorem listMovements_cons_other (db : DB) (mv : StockMovement) (rest : DB)
    (hmv : rest.movements = mv :: db.movements) {j : Nat} (hne : mv.item_id ≠ j) :
    listMovements rest j = listMovements db j := by
  simp [listMovements, hmv, hne]

theorem adjustQuantity_preserves_inv {db db' : DB} {iid : Nat} {delta : Int}
    {mt : MovementType} {r rn a : Option String} {mv : StockMovement}
    (hinv : DBInv db)
    (h : adjustQuantity db iid delta mt r rn a = .ok (db', mv)) : DBInv db' := by
  obtain ⟨it, hfind, hdelta, hge, hmv, hdb⟩ := adjustQuantity_ok_elim h
  have hitid : it.id = iid := findItemL_id hfind
  have hmvitem : mv.item_id = iid := by rw [hmv]
  have hmvafter : mv.quantity_after = it.quantity + delta := by rw [hmv]
  have hmvcons : mv.quantity_after = mv.quantity_before + mv.quantity_change := by
    rw [hmv]
  have hmvclock : mv.created_at = db.clock := by rw [hmv]
  have hitems : db'.items = setItemQuantity db.items iid (it.quantity + delta) := by
    rw [hdb]
  have hmovs : db'.movements = mv :: db.movements := by rw [hdb]
  have horders : db'.orders = db.orders := by rw [hdb]
  have hnids : db'.nextItemId = db.nextItemId := by rw [hdb]
  have hnoids : db'.nextOrderId = db.nextOrderId := by rw [hdb]
  have hclock : db'.clock = db.clock + 1 := by rw [hdb]
  constructor
  · rw [hitems]
    intro x hx
    rcases mem_setItemQuantity_elim hx with ⟨y, hy, hcase | hcase⟩
    · rw [hcase.2]
      exact hinv.items_nonneg y hy
    · rw [hcase.2]
      exact hge
  · rw [hmovs]
    intro m hm
    rcases List.mem_cons.1 hm with hm | hm
    · rw [hm]
      exact hmvcons
    · exact hinv.mv_consistent m hm
  · rw [hitems]
    intro x hx m hmhead
    rcases mem_setItemQuantity_elim hx with ⟨y, hy, hcase | hcase⟩
    · obtain ⟨hyne, hxy⟩ := hcase
      subst hxy
      rw [listMovements_cons_other db mv db' hmovs
        (by rw [hmvitem]; exact fun hc => hyne hc.symm)] at hmhead
      exact hinv.latest_matches x hy m hmhead
    · obtain ⟨hyeq, hxy⟩ := hcase
      subst hxy
      have hxid : ({ y with quantity := it.quantity + delta } : InventoryItem).id = iid := hyeq
      rw [hxid, ← hmvitem, listMovements_cons_self db mv db' hmovs] at hmhead
      simp only [List.head?_cons, Option.some.injEq] at hmhead
      rw [← hmhead, hmvafter]
  · rw [hitems, hnids]
    intro x hx
    rcases mem_setItemQuantity_elim hx with ⟨y, hy, hcase | hcase⟩
    · rw [hcase.2]
      exact hinv.item_ids_lt y hy
    · rw [hcase.2]
      exact hinv.item_ids_lt y hy
  · rw [hmovs, hnids]
    intro m hm
    rcases List.mem_cons.1 hm with hm | hm
    · rw [hm, hmvitem, ← hitid]
      exact hinv.item_ids_lt it (findItemL_mem hfind)
    · exact hinv.mv_item_ids_lt m hm
  · rw [hmovs, hclock]
    intro m hm
    rcases List.mem_cons.1 hm with hm | hm
    · rw [hm, hmvclock]
      omega
    · have := hinv.mv_clock_lt m hm
      omega
  · rw [hmovs]
    refine List.pairwise_cons.2 ⟨?_, hinv.mv_sorted⟩
    intro m hm
    rw [hmvclock]
    exact hinv.mv_clock_lt m hm
  · rw [hitems, setItemQuantity_map_id]
    exact hinv.item_ids_nodup
  · rw [horders]
    exact hinv.order_ids_nodup
  · rw [horders, hnoids]
    exact hinv.order_ids_lt

/-! ### Quantity effect of one adjustment -/

theorem adjustQuantity_qty_self {db db' : DB} {iid : Nat} {delta : Int}
    {mt : MovementType} {r rn a : Option String} {mv : StockMovement}
    (h : adjustQuantity db iid delta mt r rn a = .ok (db', mv)) :
    ∃ q, qtyOf db iid = some q ∧ qtyOf db' iid = some (q + delta) := by
  obtain ⟨it, hfind, _, _, _, hdb⟩ := adjustQuantity_ok_elim h
  refine ⟨it.quantity, ?_, ?_⟩
  · rw [qtyOf, hfind]
    rfl
  · have hitems : db'.items = setItemQuantity db.items iid (it.quantity + delta) := by
      rw [hdb]
    rw [qtyOf, hitems, findItemL_set_self, hfind]
    rfl

theorem adjustQuantity_qty_other {db db' : DB} {iid j : Nat} {delta : Int}
    {mt : MovementType} {r rn a : Option String} {mv : StockMovement}
    (h : adjustQuantity db iid delta mt r rn a = .ok (db', mv)) (hne : j ≠ iid) :
    qtyOf db' j = qtyOf db j := by
  obtain ⟨it, _, _, _, _, hdb⟩ := adjustQuantity_ok_elim h
  have hitems : db'.items = setItemQuantity db.items iid (it.quantity + delta) := by
    rw [hdb]
  rw [qtyOf, hitems, findItemL_set_other _ _ hne]
  rfl

/-! ### The per-line receive loop -/

/-- What the receive loop records for one line item: a movement on the
line's item, with `quantity_change = quantity_ordered`,
`movement_type = received` and `reference_number = po_number`. -/
def ReceiptMv (pon : String) (li : PurchaseOrderItem) (m : StockMovement) : Prop :=
  m.item_id = li.item_id ∧ m.quantity_change = li.quantity_ordered ∧
    m.movement_type = .received ∧ m.reference_number = some pon

theorem receiveLines_items_eq {db db' : DB} {pon : String}
    {ls ls' : List PurchaseOrderItem}
    (h : receiveLines db pon ls = .ok (db', ls')) :
    ls' = ls.map (fun li => { li with quantity_received := li.quantity_ordered }) := by
  induction ls generalizing db db' ls' with
  | nil =>
    simp only [receiveLines, Except.ok.injEq, Prod.mk.injEq] at h
    obtain ⟨h1, h2⟩ := h
    subst h1
    subst h2
    rfl
  | cons li rest ih =>
    simp only [receiveLines] at h
    split at h
    · exact absurd h (by simp)
    · rename_i db1 mv hadj
      split at h
      · exact absurd h (by simp)
      · rename_i db2 rest2 hrec
        simp only [Except.ok.injEq, Prod.mk.injEq] at h
        obtain ⟨h1, h2⟩ := h
        subst h1
        subst h2
        rw [List.map_cons, ih hrec]

theorem receiveLines_side {db db' : DB} {pon : String}
    {ls ls' : List PurchaseOrderItem}
    (h : receiveLines db pon ls = .ok (db', ls')) :
    db'.orders = db.orders ∧ db'.nextItemId = db.nextItemId ∧
      db'.nextOrderId = db.nextOrderId := by
  induction ls generalizing db db' ls' with
  | nil =>
    simp only [receiveLines, Except.ok.injEq, Prod.mk.injEq] at h
    obtain ⟨h1, h2⟩ := h
    subst h1
    exact ⟨rfl, rfl, rfl⟩
  | cons li rest ih =>
    simp only [receiveLines] at h
    split at h
    · exact absurd h (by simp)
    · rename_i db1 mv hadj
      split at h
      · exact absurd h (by simp)
      · rename_i db2 rest2 hrec
        simp only [Except.ok.injEq, Prod.mk.injEq] at h
        obtain ⟨h1, h2⟩ := h
        subst h1
        obtain ⟨it, _, _, _, _, hdb1⟩ := adjustQuantity_ok_elim hadj
        have h1 := ih hrec
        refine ⟨?_, ?_, ?_⟩
        · rw [h1.1, hdb1]
        · rw [h1.2.1, hdb1]
        · rw [h1.2.2, hdb1]

theorem receiveLines_inv {db db' : DB} {pon : String}
    {ls ls' : List PurchaseOrderItem} (hinv : DBInv db)
    (h : receiveLines db pon ls = .ok (db', ls')) : DBInv db' := by
  induction ls generalizing db db' ls' with
  | nil =>
    simp only [receiveLines, Except.ok.injEq, Prod.mk.injEq] at h
    obtain ⟨h1, h2⟩ := h
    subst h1
    exact hinv
  | cons li rest ih =>
    simp only [receiveLines] at h
    split at h
    · exact absurd h (by simp)
    · rename_i db1 mv hadj
      split at h
      · exact absurd h (by simp)
      · rename_i db2 rest2 hrec
        simp only [Except.ok.injEq, Prod.mk.injEq] at h
        obtain ⟨h1, h2⟩ := h
        subst h1
        exact ih (adjustQuantity_preserves_inv hinv hadj) hrec

theorem receiveLines_movs {db db' : DB} {pon : String}
    {ls ls' : List PurchaseOrderItem}
    (h : receiveLines db pon ls = .ok (db', ls')) :
    ∃ movs : List StockMovement, db'.movements = movs ++ db.movements ∧
      List.Forall₂ (ReceiptMv pon) ls movs.reverse := by
  induction ls generalizing db db' ls' with
  | nil =>
    simp only [receiveLines, Except.ok.injEq, Prod.mk.injEq] at h
    obtain ⟨h1, h2⟩ := h
    subst h1
    exact ⟨[], by simp, by simp⟩
  | cons li rest ih =>
    simp only [receiveLines] at h
    split at h
    · exact absurd h (by simp)
    · rename_i db1 mv hadj
      split at h
      · exact absurd h (by simp)
      · rename_i db2 rest2 hrec
        simp only [Except.ok.injEq, Prod.mk.injEq] at h
        obtain ⟨h1, h2⟩ := h
        subst h1
        obtain ⟨movs2, hm2, hf2⟩ := ih hrec
        obtain ⟨it, _, _, _, hmv, hdb1⟩ := adjustQuantity_ok_elim hadj
        refine ⟨movs2 ++ [mv], ?_, ?_⟩
        · rw [hm2, hdb1]
          simp
        · rw [List.reverse_append]
          simp only [List.reverse_singleton, List.singleton_append]
          refine List.forall₂_cons.2 ⟨?_, hf2⟩
          rw [ReceiptMv, hmv]
          exact ⟨rfl, rfl, rfl, rfl⟩

theorem receiveLines_qty_other {db db' : DB} {pon : String}
    {ls ls' : List PurchaseOrderItem} {j : Nat}
    (h : receiveLines db pon ls = .ok (db', ls'))
    (hj : j ∉ ls.map PurchaseOrderItem.item_id) :
    qtyOf db' j = qtyOf db j := by
  induction ls generalizing db db' ls' with
  | nil =>
    simp only [receiveLines, Except.ok.injEq, Prod.mk.injEq] at h
    obtain ⟨h1, h2⟩ := h
    subst h1
    rfl
  | cons li rest ih =>
    simp only [List.map_cons, List.mem_cons, not_or] at hj
    simp only [receiveLines] at h
    split at h
    · exact absurd h (by simp)
    · rename_i db1 mv hadj
      split at h
      · exact absurd h (by simp)
      · rename_i db2 rest2 hrec
        simp only [Except.ok.injEq, Prod.mk.injEq] at h
        obtain ⟨h1, h2⟩ := h
        subst h1
        rw [ih hrec (by simpa using hj.2), adjustQuantity_qty_other hadj hj.1]

theorem receiveLines_qty_line {db db' : DB} {pon : String}
    {ls ls' : List PurchaseOrderItem}
    (h : receiveLines db pon ls = .ok (db', ls'))
    (hnd : (ls.map PurchaseOrderItem.item_id).Nodup) :
    ∀ li ∈ ls, ∃ q, qtyOf db li.item_id = some q ∧
      qtyOf db' li.item_id = some (q + li.quantity_ordered) := by
  induction ls generalizing db db' ls' with
  | nil =>
    intro li hli
    exact absurd hli (by simp)
  | cons li rest ih =>
    simp only [List.map_cons, List.nodup_cons] at hnd
    simp only [receiveLines] at h
    split at h
    · exact absurd h (by simp)
    · rename_i db1 mv hadj
      split at h
      · exact absurd h (by simp)
      · rename_i db2 rest2 hrec
        simp only [Except.ok.injEq, Prod.mk.injEq] at h
        obtain ⟨h1, h2⟩ := h
        subst h1
        intro lj hlj
        rcases List.mem_cons.1 hlj with hlj | hlj
        · subst hlj
          obtain ⟨q, hq1, hq2⟩ := adjustQuantity_qty_self hadj
          refine ⟨q, hq1, ?_⟩
          rw [receiveLines_qty_other hrec hnd.1, hq2]
        · have hne : lj.item_id ≠ li.item_id := by
            intro hc
            exact hnd.1 (hc ▸ List.mem_map_of_mem PurchaseOrderItem.item_id hlj)
          obtain ⟨q, hq1, hq2⟩ := ih hrec hnd.2 lj hlj
          refine ⟨q, ?_, hq2⟩
          rw [← hq1, adjustQuantity_qty_other hadj hne]

/-! ### Preservation of the invariant by the other operations -/

theorem listMovements_congr {db db' : DB} (h : db'.movements = db.movements)
    (j : Nat) : listMovements db' j = listMovements db j := by
  simp [listMovements, h]

theorem createItem_preserves_inv {db : DB} {c : InventoryItemCreate}
    (hinv : DBInv db) : DBInv (createItem db c).1 := by
  have hnmem : db.nextItemId ∉ db.items.map InventoryItem.id := by
    intro hmem
    rcases List.mem_map.1 hmem with ⟨y, hy, hid⟩
    have := hinv.item_ids_lt y hy
    omega
  have hitems : (createItem db c).1.items = db.items ++ [(createItem db c).2] := rfl
  have hmovs : (createItem db c).1.movements = db.movements := rfl
  have horders : (createItem db c).1.orders = db.orders := rfl
  have hnid : (createItem db c).1.nextItemId = db.nextItemId + 1 := rfl
  have hnoid : (createItem db c).1.nextOrderId = db.nextOrderId := rfl
  have hclock : (createItem db c).1.clock = db.clock + 1 := rfl
  have hitid : (createItem db c).2.id = db.nextItemId := rfl
  have hitq : (createItem db c).2.quantity = (c.quantity : Int) := rfl
  constructor
  · rw [hitems]
    intro x hx
    rcases List.mem_append.1 hx with hx | hx
    · exact hinv.items_nonneg x hx
    · simp only [List.mem_singleton] at hx
      rw [hx, hitq]
      exact Int.natCast_nonneg c.quantity
  · rw [hmovs]
    exact hinv.mv_consistent
  · rw [hitems]
    intro x hx m hmhead
    rw [listMovements_congr hmovs] at hmhead
    rcases List.mem_append.1 hx with hx | hx
    · exact hinv.latest_matches x hx m hmhead
    · simp only [List.mem_singleton] at hx
      subst hx
      rw [hitid] at hmhead
      have hempty : listMovements db db.nextItemId = [] := by
        rw [listMovements, List.filter_eq_nil_iff]
        intro m hm
        have := hinv.mv_item_ids_lt m hm
        simp only [beq_iff_eq]
        omega
      rw [hempty] at hmhead
      exact absurd hmhead (by simp)
  · rw [hitems, hnid]
    intro x hx
    rcases List.mem_append.1 hx with hx | hx
    · have := hinv.item_ids_lt x hx
      omega
    · simp only [List.mem_singleton] at hx
      rw [hx, hitid]
      omega
  · rw [hmovs, hnid]
    intro m hm
    have := hinv.mv_item_ids_lt m hm
    omega
  · rw [hmovs, hclock]
    intro m hm
    have := hinv.mv_clock_lt m hm
    omega
  · rw [hmovs]
    exact hinv.mv_sorted
  · rw [hitems, List.map_append]
    refine List.Nodup.append hinv.item_ids_nodup (List.nodup_singleton _) ?_
    intro x hx hb
    simp only [List.map_cons, List.map_nil, List.mem_singleton] at hb
    subst hb
    rw [hitid] at hx
    exact hnmem hx
  · rw [horders]
    exact hinv.order_ids_nodup
  · rw [horders, hnoid]
    exact hinv.order_ids_lt

theorem deleteItem_preserves_inv {db db' : DB} {iid : Nat}
    (hinv : DBInv db) (h : deleteItem db iid = .ok db') : DBInv db' := by
  unfold deleteItem at h
  split at h
  · exact absurd h (by simp)
  · simp only [Except.ok.injEq] at h
    have hitems : db'.items = db.items.filter (fun it => !(it.id == iid)) := by
      rw [← h]
    have hmovs : db'.movements = db.movements := by rw [← h]
    have horders : db'.orders = db.orders := by rw [← h]
    have hnid : db'.nextItemId = db.nextItemId := by rw [← h]
    have hnoid : db'.nextOrderId = db.nextOrderId := by rw [← h]
    have hclock : db'.clock = db.clock + 1 := by rw [← h]
    constructor
    · rw [hitems]
      intro x hx
      exact hinv.items_nonneg x (List.mem_of_mem_filter hx)
    · rw [hmovs]
      exact hinv.mv_consistent
    · rw [hitems]
      intro x hx m hmhead
      rw [listMovements_congr hmovs] at hmhead
      exact hinv.latest_matches x (List.mem_of_mem_filter hx) m hmhead
    · rw [hitems, hnid]
      intro x hx
      exact hinv.item_ids_lt x (List.mem_of_mem_filter hx)
    · rw [hmovs, hnid]
      exact hinv.mv_item_ids_lt
    · rw [hmovs, hclock]
      intro m hm
      have := hinv.mv_clock_lt m hm
      omega
    · rw [hmovs]
      exact hinv.mv_sorted
    · rw [hitems]
      exact hinv.item_ids_nodup.sublist (List.Sublist.map _ (List.filter_sublist _))
    · rw [horders]
      exact hinv.order_ids_nodup
    · rw [horders, hnoid]
      exact hinv.order_ids_lt

theorem update_orders_map_id {orders : List PurchaseOrder}
    {f : PurchaseOrder → PurchaseOrder} (hf : ∀ p ∈ orders, (f p).id = p.id) :
    (orders.map f).map PurchaseOrder.id = orders.map PurchaseOrder.id := by
  rw [List.map_map]
  exact List.map_congr_left (fun p hp => hf p hp)

theorem findOrderL_update_self {orders : List PurchaseOrder} {oid : Nat}
    {o o' : PurchaseOrder} (hfind : findOrderL orders oid = some o)
    (hid : o'.id = oid) :
    findOrderL (orders.map (fun p => if p.id == oid then o' else p)) oid =
      some o' := by
  have hoid : o.id = oid := findOrderL_id hfind
  unfold findOrderL at hfind ⊢
  rw [List.find?_map]
  have hpred : ((fun p : PurchaseOrder => p.id == oid) ∘
      (fun p : PurchaseOrder => if p.id == oid then o' else p)) =
      (fun p : PurchaseOrder => p.id == oid) := by
    funext p
    by_cases hp : p.id = oid
    · simp [hp, hid]
    · simp [hp]
  rw [hpred, hfind]
  simp [hoid]

theorem createOrder_ok_facts {db db' : DB} {c : PurchaseOrderCreate}
    {o : PurchaseOrder} (h : createOrder db c = .ok (db', o)) :
    o.id = db.nextOrderId ∧
    o.total_amount =
      (c.items.map (fun li => li.quantity_ordered * li.unit_price)).sum ∧
    (o.status = .draft ∨ o.status = .pending) ∧
    db'.orders = o :: db.orders ∧ db'.items = db.items ∧
    db'.movements = db.movements ∧ db'.nextItemId = db.nextItemId ∧
    db'.nextOrderId = db.nextOrderId + 1 ∧ db'.clock = db.clock + 1 := by
  simp only [createOrder] at h
  split at h
  · exact absurd h (by simp)
  · split at h
    · exact absurd h (by simp)
    · rename_i hval hst
      simp only [Except.ok.injEq, Prod.mk.injEq] at h
      obtain ⟨h1, h2⟩ := h
      have hstatus : (o.status = .draft ∨ o.status = .pending) := by
        rw [← h2]
        simp only [Bool.not_eq_true', Bool.or_eq_false_iff] at hst
        rcases hb : c.status.getD OrderStatus.pending with st | st | st | st <;>
          simp_all
      refine ⟨by rw [← h2], by rw [← h2], hstatus, by rw [← h1, ← h2],
        by rw [← h1], by rw [← h1], by rw [← h1], by rw [← h1], by rw [← h1]⟩

theorem createOrder_preserves_inv {db db' : DB} {c : PurchaseOrderCreate}
    {o : PurchaseOrder} (hinv : DBInv db) (h : createOrder db c = .ok (db', o)) :
    DBInv db' := by
  obtain ⟨hid, _, _, horders, hitems, hmovs, hnid, hnoid, hclock⟩ :=
    createOrder_ok_facts h
  constructor
  · rw [hitems]
    exact hinv.items_nonneg
  · rw [hmovs]
    exact hinv.mv_consistent
  · rw [hitems]
    intro x hx m hmhead
    rw [listMovements_congr hmovs] at hmhead
    exact hinv.latest_matches x hx m hmhead
  · rw [hitems, hnid]
    exact hinv.item_ids_lt
  · rw [hmovs, hnid]
    exact hinv.mv_item_ids_lt
  · rw [hmovs, hclock]
    intro m hm
    have := hinv.mv_clock_lt m hm
    omega
  · rw [hmovs]
    exact hinv.mv_sorted
  · rw [hitems]
    exact hinv.item_ids_nodup
  · rw [horders, List.map_cons]
    refine List.nodup_cons.2 ⟨?_, hinv.order_ids_nodup⟩
    intro hmem
    rcases List.mem_map.1 hmem with ⟨y, hy, hyid⟩
    have := hinv.order_ids_lt y hy
    rw [hid] at hyid
    omega
  · rw [horders, hnoid]
    intro x hx
    rcases List.mem_cons.1 hx with hx | hx
    · rw [hx, hid]
      omega
    · have := hinv.order_ids_lt x hx
      omega

theorem cancelOrder_ok_facts {db db' : DB} {oid : Nat}
    (h : cancelOrder db oid = .ok db') :
    db'.items = db.items ∧ db'.movements = db.movements ∧
    db'.nextItemId = db.nextItemId ∧ db'.nextOrderId = db.nextOrderId ∧
    db'.clock = db.clock + 1 ∧
    db'.orders = db.orders.map (fun p =>
      if p.id == oid then { p with status := .cancelled,
                                   updated_at := db.clock } else p) := by
  unfold cancelOrder at h
  split at h
  · exact absurd h (by simp)
  · split at h
    · simp only [Except.ok.injEq] at h
      exact ⟨by rw [← h], by rw [← h], by rw [← h], by rw [← h], by rw [← h],
        by rw [← h]⟩
    · exact absurd h (by simp)

theorem cancelOrder_preserves_inv {db db' : DB} {oid : Nat} (hinv : DBInv db)
    (h : cancelOrder db oid = .ok db') : DBInv db' := by
  obtain ⟨hitems, hmovs, hnid, hnoid, hclock, horders⟩ := cancelOrder_ok_facts h
  constructor
  · rw [hitems]
    exact hinv.items_nonneg
  · rw [hmovs]
    exact hinv.mv_consistent
  · rw [hitems]
    intro x hx m hmhead
    rw [listMovements_congr hmovs] at hmhead
    exact hinv.latest_matches x hx m hmhead
  · rw [hitems, hnid]
    exact hinv.item_ids_lt
  · rw [hmovs, hnid]
    exact hinv.mv_item_ids_lt
  · rw [hmovs, hclock]
    intro m hm
    have := hinv.mv_clock_lt m hm
    omega
  · rw [hmovs]
    exact hinv.mv_sorted
  · rw [hitems]
    exact hinv.item_ids_nodup
  · rw [horders, update_orders_map_id]
    · exact hinv.order_ids_nodup
    · intro p _
      by_cases hp : p.id = oid <;> simp [hp]
  · rw [horders, hnoid]
    intro x hx
    rcases List.mem_map.1 hx with ⟨p, hp, hpx⟩
    have hple := hinv.order_ids_lt p hp
    rw [← hpx]
    by_cases hc : p.id = oid <;> simp [hc] <;> omega

theorem receiveLines_error_kind {db : DB} {pon : String}
    {ls : List PurchaseOrderItem} {e : LedgerError}
    (h : receiveLines db pon ls = .error e) :
    e = .ZeroDelta ∨ e = .NotFound ∨ e = .InsufficientStock := by
  induction ls generalizing db e with
  | nil => exact absurd h (by simp [receiveLines])
  | cons li rest ih =>
    simp only [receiveLines] at h
    split at h
    · rename_i hadj
      simp only [Except.error.injEq] at h
      rw [← h]
      exact adjustQuantity_error_kind hadj
    · split at h
      · rename_i hrec
        simp only [Except.error.injEq] at h
        rw [← h]
        exact ih hrec
      · exact absurd h (by simp)

theorem receiveOrder_ok_elim {db db' : DB} {oid : Nat} {o' : PurchaseOrder}
    (h : receiveOrder db oid = .ok (db', o')) :
    ∃ o db1 lines1, findOrderL db.orders oid = some o ∧
      (o.status = .draft ∨ o.status = .pending) ∧
      receiveLines db o.po_number o.items = .ok (db1, lines1) ∧
      o' = { o with status := .received, received_at := some db1.clock,
                    updated_at := db1.clock, items := lines1 } ∧
      db' = { db1 with
                orders := db1.orders.map (fun p => if p.id == oid then o' else p),
                clock := db1.clock + 1 } := by
  unfold receiveOrder at h
  split at h
  · exact absurd h (by simp)
  · rename_i o hfind
    split at h
    · rename_i hst
      split at h
      · exact absurd h (by simp)
      · rename_i db1 lines1 hrl
        simp only [Except.ok.injEq, Prod.mk.injEq] at h
        obtain ⟨h1, h2⟩ := h
        subst h2
        exact ⟨o, db1, lines1, hfind, hst, hrl, rfl, h1.symm⟩
    · exact absurd h (by simp)

theorem receiveOrder_invalid_state {db : DB} {oid : Nat} {o : PurchaseOrder}
    (hfind : findOrderL db.orders oid = some o)
    (hst : o.status = .received ∨ o.status = .cancelled) :
    receiveOrder db oid = .error .InvalidOrderState := by
  have hns : ¬(o.status = .draft ∨ o.status = .pending) := by
    rcases hst with hst | hst <;> rw [hst] <;> simp
  simp [receiveOrder, hfind, hns]

theorem receiveOrder_preserves_inv {db db' : DB} {oid : Nat}
    {o' : PurchaseOrder} (hinv : DBInv db)
    (h : receiveOrder db oid = .ok (db', o')) : DBInv db' := by
  obtain ⟨o, db1, lines1, hfind, hst, hrl, ho', hdb'⟩ := receiveOrder_ok_elim h
  have hinv1 : DBInv db1 := receiveLines_inv hinv hrl
  have hside := receiveLines_side hrl
  have hoid : o.id = oid := findOrderL_id hfind
  have ho'id : o'.id = oid := by
    rw [ho']
    exact hoid
  have hitems : db'.items = db1.items := by rw [hdb']
  have hmovs : db'.movements = db1.movements := by rw [hdb']
  have horders : db'.orders =
      db1.orders.map (fun p => if p.id == oid then o' else p) := by rw [hdb']
  have hnid : db'.nextItemId = db1.nextItemId := by rw [hdb']
  have hnoid : db'.nextOrderId = db1.nextOrderId := by rw [hdb']
  have hclock : db'.clock = db1.clock + 1 := by rw [hdb']
  constructor
  · rw [hitems]
    exact hinv1.items_nonneg
  · rw [hmovs]
    exact hinv1.mv_consistent
  · rw [hitems]
    intro x hx m hmhead
    rw [listMovements_congr hmovs] at hmhead
    exact hinv1.latest_matches x hx m hmhead
  · rw [hitems, hnid]
    exact hinv1.item_ids_lt
  · rw [hmovs, hnid]
    exact hinv1.mv_item_ids_lt
  · rw [hmovs, hclock]
    intro m hm
    have := hinv1.mv_clock_lt m hm
    omega
  · rw [hmovs]
    exact hinv1.mv_sorted
  · rw [hitems]
    exact hinv1.item_ids_nodup
  · rw [horders, update_orders_map_id]
    · exact hinv1.order_ids_nodup
    · intro p _
      by_cases hp : p.id = oid
      · rw [if_pos (by simpa using hp), ho'id, hp]
      · rw [if_neg (by simpa using hp)]
  · rw [horders, hnoid]
    intro x hx
    rcases List.mem_map.1 hx with ⟨p, hp, hpx⟩
    have hple := hinv1.order_ids_lt p hp
    rw [← hpx]
    by_cases hc : p.id = oid <;> simp [hc, ho'id] <;> omega

theorem step_preserves_inv {db : DB} (hinv : DBInv db) (op : Op) :
    DBInv (step db op) := by
  cases op with
  | createItem c => exact createItem_preserves_inv hinv
  | deleteItem iid =>
    simp only [step]
    split
    · rename_i db1 h
      exact deleteItem_preserves_inv hinv h
    · exact hinv
  | adjust iid delta mt r rn a =>
    simp only [step]
    split
    · rename_i db1 mv h
      exact adjustQuantity_preserves_inv hinv h
    · exact hinv
  | createOrder c =>
    simp only [step]
    split
    · rename_i db1 o h
      exact createOrder_preserves_inv hinv h
    · exact hinv
  | receiveOrder oid =>
    simp only [step]
    split
    · rename_i db1 o h
      exact receiveOrder_preserves_inv hinv h
    · exact hinv
  | cancelOrder oid =>
    simp only [step]
    split
    · rename_i db1 h
      exact cancelOrder_preserves_inv hinv h
    · exact hinv

theorem run_preserves_inv {db : DB} (hinv : DBInv db) (ops : List Op) :
    DBInv (run db ops) := by
  induction ops generalizing db with
  | nil => exact hinv
  | cons op rest ih => exact ih (step_preserves_inv hinv op)

/-! ### Non-negativity on its own (no other invariant needed) -/

/-- The spec's headline invariant taken alone: every stored item has a
non-negative quantity. -/
def NonnegItems (db : DB) : Prop := ∀ it ∈ db.items, 0 ≤ it.quantity

instance (db : DB) : Decidable (NonnegItems db) := by
  unfold NonnegItems
  infer_instance

theorem adjustQuantity_nonneg {db db' : DB} {iid : Nat} {delta : Int}
    {mt : MovementType} {r rn a : Option String} {mv : StockMovement}
    (hnn : NonnegItems db)
    (h : adjustQuantity db iid delta mt r rn a = .ok (db', mv)) :
    NonnegItems db' := by
  obtain ⟨it, hfind, _, hge, _, hdb⟩ := adjustQuantity_ok_elim h
  have hitems : db'.items = setItemQuantity db.items iid (it.quantity + delta) := by
    rw [hdb]
  intro x hx
  rw [hitems] at hx
  rcases mem_setItemQuantity_elim hx with ⟨y, hy, hcase | hcase⟩
  · rw [hcase.2]
    exact hnn y hy
  · rw [hcase.2]
    exact hge

theorem receiveLines_nonneg {db db' : DB} {pon : String}
    {ls ls' : List PurchaseOrderItem} (hnn : NonnegItems db)
    (h : receiveLines db pon ls = .ok (db', ls')) : NonnegItems db' := by
  induction ls generalizing db db' ls' with
  | nil =>
    simp only [receiveLines, Except.ok.injEq, Prod.mk.injEq] at h
    obtain ⟨h1, h2⟩ := h
    subst h1
    exact hnn
  | cons li rest ih =>
    simp only [receiveLines] at h
    split at h
    · exact absurd h (by simp)
    · rename_i db1 mv hadj
      split at h
      · exact absurd h (by simp)
      · rename_i db2 rest2 hrec
        simp only [Except.ok.injEq, Prod.mk.injEq] at h
        obtain ⟨h1, h2⟩ := h
        subst h1
        exact ih (adjustQuantity_nonneg hnn hadj) hrec

theorem step_nonneg {db : DB} (hnn : NonnegItems db) (op : Op) :
    NonnegItems (step db op) := by
  cases op with
  | createItem c =>
    have hitems : (step db (.createItem c)).items =
        db.items ++ [(createItem db c).2] := rfl
    have hq : (createItem db c).2.quantity = (c.quantity : Int) := rfl
    intro x hx
    rw [hitems] at hx
    rcases List.mem_append.1 hx with hx | hx
    · exact hnn x hx
    · simp only [List.mem_singleton] at hx
      rw [hx, hq]
      exact Int.natCast_nonneg c.quantity
  | deleteItem iid =>
    simp only [step]
    split
    · rename_i db1 h
      unfold deleteItem at h
      split at h
      · exact absurd h (by simp)
      · simp only [Except.ok.injEq] at h
        intro x hx
        rw [← h] at hx
        exact hnn x (List.mem_of_mem_filter hx)
    · exact hnn
  | adjust iid delta mt r rn a =>
    simp only [step]
    split
    · rename_i db1 mv h
      exact adjustQuantity_nonneg hnn h
    · exact hnn
  | createOrder c =>
    simp only [step]
    split
    · rename_i db1 o h
      have hitems := (createOrder_ok_facts h).2.2.2.2.1
      intro x hx
      rw [hitems] at hx
      exact hnn x hx
    · exact hnn
  | receiveOrder oid =>
    simp only [step]
    split
    · rename_i db1 o h
      obtain ⟨o0, dbm, lines1, _, _, hrl, _, hdb⟩ := receiveOrder_ok_elim h
      have hitems : db1.items = dbm.items := by rw [hdb]
      intro x hx
      rw [hitems] at hx
      exact receiveLines_nonneg hnn hrl x hx
    · exact hnn
  | cancelOrder oid =>
    simp only [step]
    split
    · rename_i db1 h
      have hitems := (cancelOrder_ok_facts h).1
      intro x hx
      rw [hitems] at hx
      exact hnn x hx
    · exact hnn

theorem run_nonneg {db : DB} (hnn : NonnegItems db) (ops : List Op) :
    NonnegItems (run db ops) := by
  induction ops generalizing db with
  | nil => exact hnn
  | cons op rest ih => exact ih (step_nonneg hnn op)

/-! ### Claim theorems -/

/-- C1: for every existing item and non-zero delta, `AdjustQuantity` fails
with InsufficientStock exactly when the item's current quantity plus the
delta is negative, and on that failure the store — item quantities and the
movement log alike — is left unchanged (no partial effect). -/
theorem adjust_insufficient_iff_negative (db : DB) (iid : Nat) (delta : Int)
    (mt : MovementType) (r rn a : Option String) (it : InventoryItem)
    (hfind : findItemL db.items iid = some it) (hdelta : delta ≠ 0) :
    (adjustQuantity db iid delta mt r rn a = .error .InsufficientStock ↔
      it.quantity + delta < 0) ∧
    (it.quantity + delta < 0 → step db (.adjust iid delta mt r rn a) = db) := by
  have hiff := adjustQuantity_insufficient_iff mt r rn a hfind hdelta
  exact ⟨hiff, fun hneg => adjustQuantity_error_state (hiff.2 hneg)⟩

/-- A sample item on hand (quantity 2). -/
def sampleItem : InventoryItem :=
  { id := 0, sku := some "SKU-1", name := "Widget", description := none,
    quantity := 2, price := 5, cost_price := 3, category := "general",
    reorder_level := 1, supplier_id := none }

/-- A sample store holding `sampleItem`. -/
def sampleDb : DB :=
  { items := [sampleItem], movements := [], orders := [],
    nextItemId := 1, nextMovementId := 0, nextOrderId := 0, clock := 0 }

/-- C1 witness: selling 5 with only 2 on hand fails and changes nothing. -/
theorem adjust_insufficient_iff_negative_witness :
    (adjustQuantity sampleDb 0 (-5) .sold none none none =
        .error .InsufficientStock ↔ sampleItem.quantity + (-5) < 0) ∧
    (sampleItem.quantity + (-5) < 0 →
      step sampleDb (.adjust 0 (-5) .sold none none none) = sampleDb) :=
  adjust_insufficient_iff_negative sampleDb 0 (-5) .sold none none none
    sampleItem rfl (by decide)

/-- C2: across every sequence of core operations from a store whose items
all have non-negative quantity, every item's quantity stays non-negative at
every observable point (each point is itself a run over a prefix). -/
theorem quantity_always_nonneg (db : DB) (hnn : NonnegItems db)
    (ops : List Op) : ∀ it ∈ (run db ops).items, 0 ≤ it.quantity :=
  run_nonneg hnn ops

/-- A sample item-creation request (initial quantity 3). -/
def sampleItemCreate : InventoryItemCreate :=
  { name := "Widget", description := none, quantity := 3, price := 5,
    cost_price := 3, category := "general", sku := none,
    reorder_level := 1, supplier_id := none }

/-- A sample operation sequence: create an item, sell 3, try to sell one
more (which fails). -/
def sampleOps : List Op :=
  [.createItem sampleItemCreate,
   .adjust 0 (-3) .sold none none none,
   .adjust 0 (-1) .sold none none none]

/-- C2 witness: running the sample operations from the empty store never
shows a negative quantity. -/
theorem quantity_always_nonneg_witness :
    NonnegItems DB.empty ∧
      ∀ it ∈ (run DB.empty sampleOps).items, 0 ≤ it.quantity :=
  ⟨by decide, quantity_always_nonneg DB.empty (by decide) sampleOps⟩

/-- C3: after any run from a store satisfying the invariant, every recorded
movement satisfies `quantity_after = quantity_before + quantity_change`,
and the most recent movement of each stored item records the item's current
quantity. -/
theorem movement_arith_and_latest (db : DB) (hinv : DBInv db)
    (ops : List Op) :
    (∀ mv ∈ (run db ops).movements,
       mv.quantity_after = mv.quantity_before + mv.quantity_change) ∧
    (∀ it ∈ (run db ops).items, ∀ mv,
       (listMovements (run db ops) it.id).head? = some mv →
         mv.quantity_after = it.quantity) :=
  ⟨(run_preserves_inv hinv ops).mv_consistent,
   (run_preserves_inv hinv ops).latest_matches⟩

/-- C3 witness: the sample run from the empty store. -/
theorem movement_arith_and_latest_witness :
    (∀ mv ∈ (run DB.empty sampleOps).movements,
       mv.quantity_after = mv.quantity_before + mv.quantity_change) ∧
    (∀ it ∈ (run DB.empty sampleOps).items, ∀ mv,
       (listMovements (run DB.empty sampleOps) it.id).head? = some mv →
         mv.quantity_after = it.quantity) :=
  movement_arith_and_latest DB.empty DBInv_empty sampleOps

/-- C4: when the receive operation fails, the store is unchanged — in
particular no movement exists for any line item beyond those already
present, and the order (status, received_at, quantity_received) is exactly
as before. -/
theorem receive_failure_no_effect (db : DB) (oid : Nat) (e : LedgerError)
    (h : receiveOrder db oid = .error e) :
    step db (.receiveOrder oid) = db ∧
    (∀ j, listMovements (step db (.receiveOrder oid)) j = listMovements db j) ∧
    findOrderL (step db (.receiveOrder oid)).orders oid =
      findOrderL db.orders oid := by
  have hs : step db (.receiveOrder oid) = db := by simp [step, h]
  exact ⟨hs, fun j => by rw [hs], by rw [hs]⟩

/-- A two-line order whose second line references a missing item (id 99):
receiving it must fail as a whole. -/
def sampleBadOrder : PurchaseOrder :=
  { id := 0, po_number := "PO-0", supplier_id := 0, status := .pending,
    total_amount := 22, notes := none, expected_delivery := none,
    received_at := none, created_at := 0, updated_at := 0,
    items := [{ id := 0, item_id := 0, quantity_ordered := 5,
                quantity_received := 0, unit_price := 2 },
              { id := 1, item_id := 99, quantity_ordered := 3,
                quantity_received := 0, unit_price := 4 }] }

/-- A store where `sampleBadOrder` is pending but item 99 does not exist. -/
def sampleBadDb : DB :=
  { items := [sampleItem], movements := [], orders := [sampleBadOrder],
    nextItemId := 1, nextMovementId := 0, nextOrderId := 1, clock := 0 }

/-- C4 witness: the receive fails with NotFound (second line's item is
missing) and the store — including the first line's item — is untouched. -/
theorem receive_failure_no_effect_witness :
    receiveOrder sampleBadDb 0 = .error .NotFound ∧
      step sampleBadDb (.receiveOrder 0) = sampleBadDb :=
  ⟨rfl, (receive_failure_no_effect sampleBadDb 0 .NotFound rfl).1⟩

/-- C5: a successful receive marks the order received with `received_at`
set, fills every line's `quantity_received` with `quantity_ordered`,
appends exactly one movement per line item (with
`quantity_change = quantity_ordered`, `movement_type = received`,
`reference_number = po_number`), and raises each referenced item's quantity
by that line's `quantity_ordered`. -/
theorem receive_success_effects (db db' : DB) (oid : Nat)
    (o o' : PurchaseOrder)
    (hfind : findOrderL db.orders oid = some o)
    (hnd : (o.items.map PurchaseOrderItem.item_id).Nodup)
    (h : receiveOrder db oid = .ok (db', o')) :
    o'.status = .received ∧ (∃ t, o'.received_at = some t) ∧
    o'.items = o.items.map
      (fun li => { li with quantity_received := li.quantity_ordered }) ∧
    findOrderL db'.orders oid = some o' ∧
    (∃ movs, db'.movements = movs ++ db.movements ∧
       movs.length = o.items.length ∧
       List.Forall₂ (ReceiptMv o.po_number) o.items movs.reverse) ∧
    (∀ li ∈ o.items, ∃ q, qtyOf db li.item_id = some q ∧
       qtyOf db' li.item_id = some (q + li.quantity_ordered)) := by
  obtain ⟨o0, dbm, lines1, hfind0, hst0, hrl, ho', hdb'⟩ :=
    receiveOrder_ok_elim h
  rw [hfind] at hfind0
  injection hfind0 with ho0
  subst ho0
  have hitems' : db'.items = dbm.items := by rw [hdb']
  have hmovs' : db'.movements = dbm.movements := by rw [hdb']
  have horders' : db'.orders =
      dbm.orders.map (fun p => if p.id == oid then o' else p) := by rw [hdb']
  have hdbmorders : dbm.orders = db.orders := (receiveLines_side hrl).1
  have ho'id : o'.id = oid := by
    have hid := findOrderL_id hfind
    rw [ho']
    exact hid
  refine ⟨by rw [ho'], ⟨dbm.clock, by rw [ho']⟩, ?_, ?_, ?_, ?_⟩
  · rw [ho']
    exact receiveLines_items_eq hrl
  · rw [horders', hdbmorders]
    exact findOrderL_update_self hfind ho'id
  · obtain ⟨movs, hm, hf⟩ := receiveLines_movs hrl
    refine ⟨movs, by rw [hmovs', hm], ?_, hf⟩
    rw [← List.length_reverse]
    exact hf.length_eq.symm
  · intro li hli
    obtain ⟨q, h1, h2⟩ := receiveLines_qty_line hrl hnd li hli
    refine ⟨q, h1, ?_⟩
    have hq' : qtyOf db' li.item_id = qtyOf dbm li.item_id := by
      simp only [qtyOf, hitems']
    rw [hq', h2]

/-- Item A of the spec's receive scenario (on hand: 0). -/
def sampleItemA : InventoryItem :=
  { id := 0, sku := none, name := "Item A", description := none,
    quantity := 0, price := 3, cost_price := 2, category := "general",
    reorder_level := 1, supplier_id := none }

/-- Item B of the spec's receive scenario (on hand: 0). -/
def sampleItemB : InventoryItem :=
  { id := 1, sku := none, name := "Item B", description := none,
    quantity := 0, price := 6, cost_price := 4, category := "general",
    reorder_level := 1, supplier_id := none }

/-- The spec's receive scenario: two line items, A qty 5 at 2 and
B qty 3 at 4, total 22. -/
def sampleGoodOrder : PurchaseOrder :=
  { id := 0, po_number := "PO-7", supplier_id := 0, status := .pending,
    total_amount := 22, notes := none, expected_delivery := none,
    received_at := none, created_at := 0, updated_at := 0,
    items := [{ id := 0, item_id := 0, quantity_ordered := 5,
                quantity_received := 0, unit_price := 2 },
              { id := 1, item_id := 1, quantity_ordered := 3,
                quantity_received := 0, unit_price := 4 }] }

/-- A store where the scenario order is pending and both items exist. -/
def sampleGoodDb : DB :=
  { items := [sampleItemA, sampleItemB], movements := [],
    orders := [sampleGoodOrder], nextItemId := 2, nextMovementId := 0,
    nextOrderId := 1, clock := 0 }

/-- The store after receiving the scenario order. -/
def sampleRecvDb : DB :=
  match receiveOrder sampleGoodDb 0 with
  | .ok p => p.1
  | .error _ => DB.empty

/-- The scenario order as returned by the receive operation. -/
def sampleRecvOrder : PurchaseOrder :=
  match receiveOrder sampleGoodDb 0 with
  | .ok p => p.2
  | .error _ => sampleGoodOrder

/-- C5 witness: receiving the scenario order yields status received,
filled `quantity_received`, and item quantities increased by 5 and 3. -/
theorem receive_success_effects_witness :
    sampleRecvOrder.status = .received ∧
    sampleRecvOrder.items = sampleGoodOrder.items.map
      (fun li => { li with quantity_received := li.quantity_ordered }) ∧
    (∀ li ∈ sampleGoodOrder.items, ∃ q,
       qtyOf sampleGoodDb li.item_id = some q ∧
       qtyOf sampleRecvDb li.item_id = some (q + li.quantity_ordered)) :=
  have hmain := receive_success_effects sampleGoodDb sampleRecvDb 0
    sampleGoodOrder sampleRecvOrder rfl (by decide) rfl
  ⟨hmain.1, hmain.2.2.1, hmain.2.2.2.2.2⟩

/-- C6: receive is permitted exactly from draft/pending — from those states
it never fails with InvalidOrderState; from received/cancelled it fails
with InvalidOrderState and leaves the store unchanged; and receiving an
order a second time fails with InvalidOrderState. -/
theorem receive_status_gate (db : DB) (oid : Nat) (o : PurchaseOrder)
    (hfind : findOrderL db.orders oid = some o) :
    ((o.status = .draft ∨ o.status = .pending) →
       receiveOrder db oid ≠ .error .InvalidOrderState) ∧
    ((o.status = .received ∨ o.status = .cancelled) →
       receiveOrder db oid = .error .InvalidOrderState ∧
         step db (.receiveOrder oid) = db) ∧
    (∀ db' o', receiveOrder db oid = .ok (db', o') →
       receiveOrder db' oid = .error .InvalidOrderState) := by
  refine ⟨?_, ?_, ?_⟩
  · intro hst hcontra
    simp only [receiveOrder, hfind] at hcontra
    rw [if_pos hst] at hcontra
    cases hrl : receiveLines db o.po_number o.items with
    | error e =>
      rw [hrl] at hcontra
      simp only [Except.error.injEq] at hcontra
      rcases receiveLines_error_kind hrl with hk | hk | hk <;> simp_all
    | ok p =>
      obtain ⟨db1, lines1⟩ := p
      rw [hrl] at hcontra
      simp at hcontra
  · intro hst
    have herr := receiveOrder_invalid_state hfind hst
    exact ⟨herr, by simp [step, herr]⟩
  · intro db' o' hok
    obtain ⟨o0, dbm, lines1, hfind0, _, hrl, ho', hdb'⟩ :=
      receiveOrder_ok_elim hok
    rw [hfind] at hfind0
    injection hfind0 with ho0
    subst ho0
    have ho'id : o'.id = oid := by
      have hid := findOrderL_id hfind
      rw [ho']
      exact hid
    have hfind' : findOrderL db'.orders oid = some o' := by
      have horders' : db'.orders =
          dbm.orders.map (fun p => if p.id == oid then o' else p) := by
        rw [hdb']
      rw [horders', (receiveLines_side hrl).1]
      exact findOrderL_update_self hfind ho'id
    refine receiveOrder_invalid_state hfind' (Or.inl ?_)
    rw [ho']

/-- The scenario order already marked received (a terminal state). -/
def sampleReceivedOrder : PurchaseOrder :=
  { sampleGoodOrder with status := .received, received_at := some 0 }

/-- A store where the scenario order is already received. -/
def sampleReceivedDb : DB :=
  { sampleGoodDb with orders := [sampleReceivedOrder] }

/-- C6 witness: receiving an already-received order fails with
InvalidOrderState and has no effect. -/
theorem receive_status_gate_witness :
    receiveOrder sampleReceivedDb 0 = .error .InvalidOrderState ∧
      step sampleReceivedDb (.receiveOrder 0) = sampleReceivedDb :=
  (receive_status_gate sampleReceivedDb 0 sampleReceivedOrder rfl).2.1
    (Or.inl rfl)

theorem adjustQuantity_ok_of {db : DB} {iid : Nat} (delta : Int)
    (mt : MovementType) (r rn a : Option String) {it : InventoryItem}
    (hfind : findItemL db.items iid = some it) (hdelta : ¬delta = 0)
    (hge : ¬it.quantity + delta < 0) :
    ∃ db' mv, adjustQuantity db iid delta mt r rn a = .ok (db', mv) := by
  simp only [adjustQuantity, hfind]
  rw [if_neg hdelta, if_neg hge]
  exact ⟨_, _, rfl⟩

/-- C7: on an item with quantity 1, two `AdjustQuantity(item, -1)` calls —
serialized per the spec's concurrency contract — behave so that the first
succeeds and the second fails with InsufficientStock; the final quantity is
0 and exactly one movement was recorded. -/
theorem two_sales_of_last_unit (db : DB) (iid : Nat) (it : InventoryItem)
    (r rn a : Option String) (hfind : findItemL db.items iid = some it)
    (hq : it.quantity = 1) :
    ∃ db1 mv, adjustQuantity db iid (-1) .sold r rn a = .ok (db1, mv) ∧
      adjustQuantity db1 iid (-1) .sold r rn a = .error .InsufficientStock ∧
      qtyOf db1 iid = some 0 ∧ db1.movements = mv :: db.movements := by
  obtain ⟨db1, mv, h1⟩ :=
    adjustQuantity_ok_of (-1) .sold r rn a hfind (by norm_num)
      (by rw [hq]; norm_num)
  obtain ⟨it0, hfind0, _, _, hmv, hdb1⟩ := adjustQuantity_ok_elim h1
  rw [hfind] at hfind0
  injection hfind0 with hit0
  subst hit0
  have hitems1 : db1.items = setItemQuantity db.items iid (it.quantity + -1) := by
    rw [hdb1]
  have hmovs1 : db1.movements = mv :: db.movements := by rw [hdb1]
  have hfind1 : findItemL db1.items iid =
      some { it with quantity := it.quantity + -1 } := by
    rw [hitems1, findItemL_set_self, hfind]
    rfl
  refine ⟨db1, mv, h1, ?_, ?_, hmovs1⟩
  · refine (adjustQuantity_insufficient_iff .sold r rn a hfind1
      (by norm_num)).2 ?_
    show it.quantity + -1 + -1 < 0
    rw [hq]
    norm_num
  · show (findItemL db1.items iid).map (fun x => x.quantity) = some 0
    rw [hfind1]
    show some (it.quantity + -1) = some 0
    rw [hq]
    norm_num

/-- The sample item with a single unit on hand. -/
def sampleLastUnitItem : InventoryItem := { sampleItem with quantity := 1 }

/-- A store holding exactly one unit of the sample item. -/
def sampleLastUnitDb : DB := { sampleDb with items := [sampleLastUnitItem] }

/-- C7 witness: the two serialized sales of the last unit on the sample
store. -/
theorem two_sales_of_last_unit_witness :
    ∃ db1 mv,
      adjustQuantity sampleLastUnitDb 0 (-1) .sold none none none =
        .ok (db1, mv) ∧
      adjustQuantity db1 0 (-1) .sold none none none =
        .error .InsufficientStock ∧
      qtyOf db1 0 = some 0 ∧ db1.movements = mv :: sampleLastUnitDb.movements :=
  two_sales_of_last_unit sampleLastUnitDb 0 sampleLastUnitItem
    none none none rfl rfl

/-- C8: `total_amount` equals the sum over line items of
`quantity_ordered * unit_price`, computed at order creation (the creation
request carries no total), and a receive does not re-derive it — the
received order keeps the stored total unchanged. -/
theorem order_total_amount (db db2 dbr dbr2 : DB) (c : PurchaseOrderCreate)
    (o : PurchaseOrder) (oid : Nat) (p p' : PurchaseOrder)
    (hc : createOrder db c = .ok (db2, o))
    (hfo : findOrderL dbr.orders oid = some p)
    (hr : receiveOrder dbr oid = .ok (dbr2, p')) :
    o.total_amount =
      (c.items.map (fun li => li.quantity_ordered * li.unit_price)).sum ∧
    p'.total_amount = p.total_amount := by
  refine ⟨(createOrder_ok_facts hc).2.1, ?_⟩
  obtain ⟨p0, dbm, lines1, hfind0, _, hrl, hp', _⟩ := receiveOrder_ok_elim hr
  rw [hfo] at hfind0
  injection hfind0 with hp0
  subst hp0
  rw [hp']

/-- A store with the two scenario items and no orders yet. -/
def sampleCreateDb : DB :=
  { items := [sampleItemA, sampleItemB], movements := [], orders := [],
    nextItemId := 2, nextMovementId := 0, nextOrderId := 0, clock := 0 }

/-- The scenario creation request: A qty 5 at 2 and B qty 3 at 4 (no total
supplied by the caller). -/
def samplePOCreate : PurchaseOrderCreate :=
  { supplier_id := 0,
    items := [{ item_id := 0, quantity_ordered := 5, unit_price := 2 },
              { item_id := 1, quantity_ordered := 3, unit_price := 4 }],
    notes := none, expected_delivery := none, status := none }

/-- The store after creating the scenario order. -/
def sampleCreatedDb : DB :=
  match createOrder sampleCreateDb samplePOCreate with
  | .ok p => p.1
  | .error _ => DB.empty

/-- The scenario order as returned by creation. -/
def sampleCreatedOrder : PurchaseOrder :=
  match createOrder sampleCreateDb samplePOCreate with
  | .ok p => p.2
  | .error _ => sampleGoodOrder

/-- The store after receiving the created scenario order. -/
def sampleCreatedRecvDb : DB :=
  match receiveOrder sampleCreatedDb 0 with
  | .ok p => p.1
  | .error _ => DB.empty

/-- The created scenario order as returned by the receive operation. -/
def sampleCreatedRecvOrder : PurchaseOrder :=
  match receiveOrder sampleCreatedDb 0 with
  | .ok p => p.2
  | .error _ => sampleGoodOrder

/-- C8 witness: the created scenario order carries the computed total
(5 * 2 + 3 * 4 = 22) and receiving it keeps that total. -/
theorem order_total_amount_witness :
    sampleCreatedOrder.total_amount =
      (samplePOCreate.items.map
        (fun li => li.quantity_ordered * li.unit_price)).sum ∧
    sampleCreatedRecvOrder.total_amount = sampleCreatedOrder.total_amount :=
  order_total_amount sampleCreateDb sampleCreatedDb sampleCreatedDb
    sampleCreatedRecvDb samplePOCreate sampleCreatedOrder 0
    sampleCreatedOrder sampleCreatedRecvOrder rfl rfl rfl

/-- C9: the movement query for an item returns exactly that item's
movements, ordered by creation time strictly descending (newest first); as
a plain function of the store it reads and mutates nothing. -/
theorem listMovements_ordered (db : DB) (hinv : DBInv db) (iid : Nat) :
    (∀ mv, mv ∈ listMovements db iid ↔
       mv ∈ db.movements ∧ mv.item_id = iid) ∧
    List.Pairwise (fun x y => y.created_at < x.created_at)
      (listMovements db iid) := by
  constructor
  · intro mv
    simp [listMovements, List.mem_filter]
  · exact List.Pairwise.sublist (List.filter_sublist _) hinv.mv_sorted

/-- C9 witness: the query on the store reached by the sample run. -/
theorem listMovements_ordered_witness :
    (∀ mv, mv ∈ listMovements (run DB.empty sampleOps) 0 ↔
       mv ∈ (run DB.empty sampleOps).movements ∧ mv.item_id = 0) ∧
    List.Pairwise (fun x y => y.created_at < x.created_at)
      (listMovements (run DB.empty sampleOps) 0) :=
  listMovements_ordered (run DB.empty sampleOps)
    (run_preserves_inv DBInv_empty sampleOps) 0

/-- Transcribed from `getStockMovements` in
`frontend/src/hooks/useInventory.ts`: the HTTP request either yields the
movement list or fails; on failure the hook logs the error and returns an
empty list to its caller. -/
def getStockMovementsHook (resp : Except String (List StockMovement)) :
    List StockMovement :=
  match resp with
  | .ok ms => ms
  | .error _ => []

/-- Transcribed from `addItem` in `frontend/src/hooks/useInventory.ts`: on
failure the hook records the banner message "Failed to add item" and
rethrows, so the caller still observes the failure; on success it returns
the created item. -/
def addItemHook (resp : Except String InventoryItem) :
    Option String × Except String InventoryItem :=
  match resp with
  | .ok it => (none, .ok it)
  | .error e => (some "Failed to add item", .error e)

/-- Transcribed from `updateItem` in `frontend/src/hooks/useInventory.ts`:
on failure the hook records the banner message "Failed to update item" and
rethrows; on success it returns the updated item. -/
def updateItemHook (resp : Except String InventoryItem) :
    Option String × Except String InventoryItem :=
  match resp with
  | .ok it => (none, .ok it)
  | .error e => (some "Failed to update item", .error e)

/-- Transcribed from `deleteItem` in `frontend/src/hooks/useInventory.ts`:
on failure the hook records the banner message "Failed to delete item" and
rethrows; on success the request returns no payload. -/
def deleteItemHook (resp : Except String Unit) :
    Option String × Except String Unit :=
  match resp with
  | .ok u => (none, .ok u)
  | .error e => (some "Failed to delete item", .error e)

/-- Transcribed from `createOrder` in
`frontend/src/hooks/usePurchaseOrders.ts`: on failure the hook records the
banner message "Failed to create purchase order" and rethrows; on success
it returns the created order. -/
def createOrderHook (resp : Except String PurchaseOrder) :
    Option String × Except String PurchaseOrder :=
  match resp with
  | .ok o => (none, .ok o)
  | .error e => (some "Failed to create purchase order", .error e)

/-- Transcribed from `updateOrder` in
`frontend/src/hooks/usePurchaseOrders.ts`: on failure the hook records the
banner message "Failed to update purchase order" and rethrows; on success
it returns the updated order. -/
def updateOrderHook (resp : Except String PurchaseOrder) :
    Option String × Except String PurchaseOrder :=
  match resp with
  | .ok o => (none, .ok o)
  | .error e => (some "Failed to update purchase order", .error e)

/-- Transcribed from `deleteOrder` in
`frontend/src/hooks/usePurchaseOrders.ts`: on failure the hook records the
banner message "Failed to delete purchase order" and rethrows; on success
the request returns no payload. -/
def deleteOrderHook (resp : Except String Unit) :
    Option String × Except String Unit :=
  match resp with
  | .ok u => (none, .ok u)
  | .error e => (some "Failed to delete purchase order", .error e)

/-- Transcribed from `receiveOrder` in
`frontend/src/hooks/usePurchaseOrders.ts`: on failure the hook records the
banner message "Failed to receive purchase order" and rethrows, so the
caller still observes the failure. -/
def receiveOrderHook (resp : Except String PurchaseOrder) :
    Option String × Except String PurchaseOrder :=
  match resp with
  | .ok o => (none, .ok o)
  | .error e => (some "Failed to receive purchase order", .error e)

/-- C10 counterexample: a failed list-movements call returns exactly the
same value as a successful call on an item with no movements, so the
failure is swallowed — not surfaced as anything distinguishable from an
empty history. -/
theorem list_movements_error_swallowed :
    getStockMovementsHook (.error "Request failed with status code 500") =
      getStockMovementsHook (.ok []) := rfl

/-- C10 amended: every mutation hook — add/update/delete item and
create/update/delete/receive order — propagates its failure to the caller
unchanged, but a failure of the list-movements hook is swallowed: it
returns the empty list, indistinguishable from a successful result for an
item with no movements. -/
theorem error_propagation_amended :
    (∀ e, (addItemHook (.error e)).2 = .error e) ∧
    (∀ e, (updateItemHook (.error e)).2 = .error e) ∧
    (∀ e, (deleteItemHook (.error e)).2 = .error e) ∧
    (∀ e, (createOrderHook (.error e)).2 = .error e) ∧
    (∀ e, (updateOrderHook (.error e)).2 = .error e) ∧
    (∀ e, (deleteOrderHook (.error e)).2 = .error e) ∧
    (∀ e, (receiveOrderHook (.error e)).2 = .error e) ∧
    (∀ e, getStockMovementsHook (.error e) = []) ∧
    (∀ ms, getStockMovementsHook (.ok ms) = ms) :=
  ⟨fun _ => rfl, fun _ => rfl, fun _ => rfl, fun _ => rfl, fun _ => rfl,
   fun _ => rfl, fun _ => rfl, fun _ => rfl, fun _ => rfl⟩
